import Mathlib

/-
Verification of the four write-then-read coordination patterns of
src/main.go (package main): blockingWithWaitgroups, blockingWithChannel,
returningWithChannel and the mutex-guarded safeNumber with useMutex.

Each pattern involves exactly two threads of execution: the calling
routine and the single spawned goroutine.  We embed each pattern as a
small-step transition system: a state records the shared variables, the
synchronization primitive's state and one program counter per thread,
and an execution is driven by a schedule, a finite list of thread
choices.  A thread whose next statement is blocked (a wait on a nonzero
counter, a channel operation with no partner, a lock held by the other
thread) stutters, leaving the state unchanged, which models Go's
blocking semantics over all interleavings.
-/

namespace RaceDemo

/-- A thread choice in a schedule: the calling routine or the one spawned goroutine. -/
inductive Thread
  | caller
  | task
deriving DecidableEq

/-! ## blockingWithWaitgroups (src/main.go lines 41-56)

    func blockingWithWaitgroups() int {
        var i int
        var wg sync.WaitGroup
        wg.Add(1)
        go func() { i = 5; wg.Done() }()
        wg.Wait()
        return i
    }
-/

/-- Program counter of the caller in blockingWithWaitgroups:
`add` is about to run wg.Add(1), `spawn` is about to start the goroutine,
`wait` is at wg.Wait(), `done` has returned i. -/
inductive WgCallerPc
  | add
  | spawn
  | wait
  | done
deriving DecidableEq

/-- Program counter of the spawned goroutine in blockingWithWaitgroups:
not yet spawned, about to run i = 5, about to run wg.Done(), finished. -/
inductive WgTaskPc
  | notSpawned
  | write
  | signal
  | finished
deriving DecidableEq

/-- State of a blockingWithWaitgroups invocation: the shared variable i,
the WaitGroup counter wg, and the two program counters. -/
structure WgState where
  i : Int
  wg : Int
  caller : WgCallerPc
  task : WgTaskPc
deriving DecidableEq

/-- Initial state: i is the zero-valued local, wg is a zero-valued WaitGroup,
the caller is about to run wg.Add(1), the goroutine is not yet spawned. -/
def wgInit : WgState := { i := 0, wg := 0, caller := .add, task := .notSpawned }

/-- One step of the caller.  wg.Wait() proceeds only when the counter is
zero; otherwise the caller stutters (is blocked). -/
def wgCallerStep (s : WgState) : WgState :=
  match s.caller with
  | .add => { s with wg := s.wg + 1, caller := .spawn }
  | .spawn => { s with caller := .wait, task := .write }
  | .wait => if s.wg = 0 then { s with caller := .done } else s
  | .done => s

/-- One step of the spawned goroutine: write i = 5, then wg.Done()
(decrement the counter).  Before being spawned or after finishing it
stutters. -/
def wgTaskStep (s : WgState) : WgState :=
  match s.task with
  | .notSpawned => s
  | .write => { s with i := 5, task := .signal }
  | .signal => { s with wg := s.wg - 1, task := .finished }
  | .finished => s

/-- One scheduled step of the blockingWithWaitgroups system. -/
def wgStep (t : Thread) (s : WgState) : WgState :=
  match t with
  | .caller => wgCallerStep s
  | .task => wgTaskStep s

/-- Run blockingWithWaitgroups under a schedule, from the initial state. -/
def wgRun (sched : List Thread) : WgState :=
  sched.foldl (fun s t => wgStep t s) wgInit

/-- Inductive invariant of blockingWithWaitgroups: for every reachable
combination of program counters it pins down the WaitGroup counter and
the shared variable. -/
def WgInv (s : WgState) : Prop :=
  match s.caller, s.task with
  | .add, .notSpawned => s.wg = 0 ∧ s.i = 0
  | .spawn, .notSpawned => s.wg = 1 ∧ s.i = 0
  | .wait, .write => s.wg = 1 ∧ s.i = 0
  | .wait, .signal => s.wg = 1 ∧ s.i = 5
  | .wait, .finished => s.wg = 0 ∧ s.i = 5
  | .done, .finished => s.wg = 0 ∧ s.i = 5
  | _, _ => False

lemma wgInit_inv : WgInv wgInit := by
  simp [WgInv, wgInit]

lemma wgStep_inv (t : Thread) (s : WgState) (h : WgInv s) : WgInv (wgStep t s) := by
  obtain ⟨i, wg, caller, task⟩ := s
  cases t <;> cases caller <;> cases task <;>
    simp_all [WgInv, wgStep, wgCallerStep, wgTaskStep]

lemma wgRun_inv (sched : List Thread) : WgInv (wgRun sched) := by
  suffices h : ∀ (l : List Thread) (s : WgState), WgInv s →
      WgInv (l.foldl (fun s t => wgStep t s) s) from h sched wgInit wgInit_inv
  intro l
  induction l with
  | nil => intro s hs; exact hs
  | cons t l ih => intro s hs; exact ih _ (wgStep_inv t s hs)

/-! ## blockingWithChannel (src/main.go lines 58-70)

    func blockingWithChannel() int {
        var i int
        done := make(chan struct{})
        go func() { i = 5; done <- struct{}{} }()
        <-done
        return i
    }

The done channel is unbuffered, so the send and the receive form a
rendezvous: either operation completes only when the other thread is at
the matching operation, and both program counters advance together. -/

/-- Program counter of the caller in blockingWithChannel: about to make
the channel, about to spawn, blocked at the receive, returned i. -/
inductive ChCallerPc
  | mkChan
  | spawn
  | recv
  | done
deriving DecidableEq

/-- Program counter of the goroutine in blockingWithChannel: not yet
spawned, about to run i = 5, blocked at the send, finished. -/
inductive ChTaskPc
  | notSpawned
  | write
  | send
  | finished
deriving DecidableEq

/-- State of a blockingWithChannel invocation: the shared variable i and
the two program counters (the unbuffered channel holds no state of its
own; its rendezvous is a joint step of the two counters). -/
structure ChState where
  i : Int
  caller : ChCallerPc
  task : ChTaskPc
deriving DecidableEq

/-- Initial state of blockingWithChannel. -/
def chInit : ChState := { i := 0, caller := .mkChan, task := .notSpawned }

/-- One step of the caller.  The receive on the unbuffered channel
completes only when the goroutine is at its send, and then advances
both threads; otherwise the caller stutters. -/
def chCallerStep (s : ChState) : ChState :=
  match s.caller with
  | .mkChan => { s with caller := .spawn }
  | .spawn => { s with caller := .recv, task := .write }
  | .recv => if s.task = .send then { s with caller := .done, task := .finished } else s
  | .done => s

/-- One step of the goroutine: write i = 5, then send on the unbuffered
channel, which completes only when the caller is at its receive and
advances both threads. -/
def chTaskStep (s : ChState) : ChState :=
  match s.task with
  | .notSpawned => s
  | .write => { s with i := 5, task := .send }
  | .send => if s.caller = .recv then { s with caller := .done, task := .finished } else s
  | .finished => s

/-- One scheduled step of the blockingWithChannel system. -/
def chStep (t : Thread) (s : ChState) : ChState :=
  match t with
  | .caller => chCallerStep s
  | .task => chTaskStep s

/-- Run blockingWithChannel under a schedule, from the initial state. -/
def chRun (sched : List Thread) : ChState :=
  sched.foldl (fun s t => chStep t s) chInit

/-- Inductive invariant of blockingWithChannel: the shared variable at
every reachable combination of program counters. -/
def ChInv (s : ChState) : Prop :=
  match s.caller, s.task with
  | .mkChan, .notSpawned => s.i = 0
  | .spawn, .notSpawned => s.i = 0
  | .recv, .write => s.i = 0
  | .recv, .send => s.i = 5
  | .done, .finished => s.i = 5
  | _, _ => False

lemma chInit_inv : ChInv chInit := by
  simp [ChInv, chInit]

lemma chStep_inv (t : Thread) (s : ChState) (h : ChInv s) : ChInv (chStep t s) := by
  obtain ⟨i, caller, task⟩ := s
  cases t <;> cases caller <;> cases task <;>
    simp_all [ChInv, chStep, chCallerStep, chTaskStep]

lemma chRun_inv (sched : List Thread) : ChInv (chRun sched) := by
  suffices h : ∀ (l : List Thread) (s : ChState), ChInv s →
      ChInv (l.foldl (fun s t => chStep t s) s) from h sched chInit chInit_inv
  intro l
  induction l with
  | nil => intro s hs; exact hs
  | cons t l ih => intro s hs; exact ih _ (chStep_inv t s hs)

/-! ## returningWithChannel (src/main.go lines 72-81)

    func returningWithChannel() <-chan int {
        c := make(chan int)
        go func() { c <- 5 }()
        return c
    }

The caller thread runs the function body (make the channel, spawn the
goroutine, return the channel handle) and then acts as the consumer.
The driver in main performs one receive (i := <-returningWithChannel());
to express single delivery we let the consumer attempt a second receive
on the same handle after the first one succeeds.  The channel is
unbuffered, so each receive is a rendezvous with the goroutine's send,
and the value transferred is the one the goroutine sends. -/

/-- The value the goroutine of returningWithChannel sends (c <- 5). -/
def retSendVal : Int := 5

/-- Program counter of the caller thread of returningWithChannel: the
three statements of the function body (make the channel, spawn, return
the handle), then the consumer's first and second receive attempts on
the returned handle, then done. -/
inductive RetCallerPc
  | mkChan
  | spawn
  | ret
  | recvFirst
  | recvSecond
  | done
deriving DecidableEq

/-- Program counter of the goroutine of returningWithChannel: not yet
spawned, blocked at its single send of 5, finished. -/
inductive RetTaskPc
  | notSpawned
  | send
  | finished
deriving DecidableEq

/-- State of a returningWithChannel invocation and its consumer:
x is the value obtained by the first receive (none until it completes),
y the value obtained by the second receive attempt. -/
structure RetState where
  x : Option Int
  y : Option Int
  caller : RetCallerPc
  task : RetTaskPc
deriving DecidableEq

/-- Initial state of returningWithChannel. -/
def retInit : RetState := { x := none, y := none, caller := .mkChan, task := .notSpawned }

/-- One step of the caller thread.  The three function-body statements
are unguarded (never block); each receive attempt is a rendezvous that
completes only when the goroutine is at its send, transferring the sent
value and advancing both threads, and stutters otherwise. -/
def retCallerStep (s : RetState) : RetState :=
  match s.caller with
  | .mkChan => { s with caller := .spawn }
  | .spawn => { s with caller := .ret, task := .send }
  | .ret => { s with caller := .recvFirst }
  | .recvFirst =>
      if s.task = .send then
        { s with x := some retSendVal, caller := .recvSecond, task := .finished }
      else s
  | .recvSecond =>
      if s.task = .send then
        { s with y := some retSendVal, caller := .done, task := .finished }
      else s
  | .done => s

/-- One step of the goroutine: its single send of 5 completes only when
the consumer is at a receive attempt, and advances both threads. -/
def retTaskStep (s : RetState) : RetState :=
  match s.task with
  | .notSpawned => s
  | .send =>
      match s.caller with
      | .recvFirst => { s with x := some retSendVal, caller := .recvSecond, task := .finished }
      | .recvSecond => { s with y := some retSendVal, caller := .done, task := .finished }
      | _ => s
  | .finished => s

/-- One scheduled step of the returningWithChannel system. -/
def retStep (t : Thread) (s : RetState) : RetState :=
  match t with
  | .caller => retCallerStep s
  | .task => retTaskStep s

/-- Run returningWithChannel under a schedule, from the initial state. -/
def retRun (sched : List Thread) : RetState :=
  sched.foldl (fun s t => retStep t s) retInit

/-- Inductive invariant of returningWithChannel: the goroutine sends
exactly once, so the first receive obtains 5 and the second receive
attempt can never complete (no state has the caller at done or y set). -/
def RetInv (s : RetState) : Prop :=
  match s.caller, s.task with
  | .mkChan, .notSpawned => s.x = none ∧ s.y = none
  | .spawn, .notSpawned => s.x = none ∧ s.y = none
  | .ret, .send => s.x = none ∧ s.y = none
  | .recvFirst, .send => s.x = none ∧ s.y = none
  | .recvSecond, .finished => s.x = some 5 ∧ s.y = none
  | _, _ => False

lemma retInit_inv : RetInv retInit := by
  simp [RetInv, retInit]

lemma retStep_inv (t : Thread) (s : RetState) (h : RetInv s) : RetInv (retStep t s) := by
  obtain ⟨x, y, caller, task⟩ := s
  cases t <;> cases caller <;> cases task <;>
    simp_all [RetInv, retStep, retCallerStep, retTaskStep, retSendVal]

lemma retRun_inv (sched : List Thread) : RetInv (retRun sched) := by
  suffices h : ∀ (l : List Thread) (s : RetState), RetInv s →
      RetInv (l.foldl (fun s t => retStep t s) s) from h sched retInit retInit_inv
  intro l
  induction l with
  | nil => intro s hs; exact hs
  | cons t l ih => intro s hs; exact ih _ (retStep_inv t s hs)

/-! ## safeNumber and useMutex (src/main.go lines 8-11, 83-110)

    type safeNumber struct { val int; m sync.Mutex }

    func (i *safeNumber) get() int { i.m.Lock(); defer i.m.Unlock(); return i.val }
    func (i *safeNumber) set(val int) { i.m.Lock(); defer i.m.Unlock(); i.val = val }

    func useMutex() int {
        i := &safeNumber{}
        go func() { i.set(5) }()
        return i.get()
    }

We give two embeddings.  First a sequential one of the two accessors,
where a Lock that would block (the mutex already held) yields none and
a completed operation returns the result together with the updated
container; it serves the single-thread claims about get and set.
Second, a two-thread small-step system for useMutex, where the caller
runs i.get() and the goroutine runs i.set(5), each broken into its
Lock, body and deferred Unlock steps, with the mutex modeled as an
optional owner. -/

/-- The safeNumber container of the sequential embedding: the integer
val and the mutex m (true when held). -/
structure safeNumber where
  val : Int
  m : Bool
deriving DecidableEq

/-- A zero-valued safeNumber, as produced by the literal in useMutex. -/
def mkSafeNumber : safeNumber := { val := 0, m := false }

/-- Sequential m.Lock(): none when the mutex is already held (the call
would block), otherwise the container with the mutex held. -/
def mLock (sn : safeNumber) : Option safeNumber :=
  if sn.m then none else some { sn with m := true }

/-- Sequential m.Unlock(). -/
def mUnlock (sn : safeNumber) : safeNumber := { sn with m := false }

/-- Sequential safeNumber.get: Lock, read val, deferred Unlock; returns
the value read together with the container after the call. -/
def safeNumber.get (sn : safeNumber) : Option (Int × safeNumber) :=
  match mLock sn with
  | none => none
  | some sn1 => some (sn1.val, mUnlock sn1)

/-- Sequential safeNumber.set: Lock, write val, deferred Unlock; returns
the container after the call. -/
def safeNumber.set (sn : safeNumber) (val : Int) : Option safeNumber :=
  match mLock sn with
  | none => none
  | some sn1 => some (mUnlock { sn1 with val := val })

/-- Program counter of the caller in useMutex: make the safeNumber,
spawn the goroutine, then the steps of i.get(): m.Lock(), the read of
i.val, the deferred m.Unlock(), and done (value returned). -/
inductive MuCallerPc
  | mkNum
  | spawn
  | lock
  | read
  | unlock
  | done
deriving DecidableEq

/-- Program counter of the goroutine in useMutex: not yet spawned, then
the steps of i.set(5): m.Lock(), the write i.val = 5, the deferred
m.Unlock(), and finished. -/
inductive MuTaskPc
  | notSpawned
  | lock
  | write
  | unlock
  | finished
deriving DecidableEq

/-- State of a useMutex invocation: the container's val, the mutex as
its current owner (none when free), the value returned by i.get() once
the read has happened, and the two program counters. -/
structure MuState where
  val : Int
  owner : Option Thread
  ret : Option Int
  caller : MuCallerPc
  task : MuTaskPc
deriving DecidableEq

/-- Initial state of useMutex: a zero-valued safeNumber, mutex free. -/
def muInit : MuState :=
  { val := 0, owner := none, ret := none, caller := .mkNum, task := .notSpawned }

/-- One step of the caller.  m.Lock() proceeds only when the mutex is
free and makes the caller its owner; the read records i.val as the
return value; the deferred m.Unlock() frees the mutex. -/
def muCallerStep (s : MuState) : MuState :=
  match s.caller with
  | .mkNum => { s with caller := .spawn }
  | .spawn => { s with caller := .lock, task := .lock }
  | .lock => if s.owner = none then { s with owner := some .caller, caller := .read } else s
  | .read => { s with ret := some s.val, caller := .unlock }
  | .unlock => { s with owner := none, caller := .done }
  | .done => s

/-- One step of the goroutine running i.set(5): m.Lock() when the mutex
is free, the write i.val = 5, the deferred m.Unlock(). -/
def muTaskStep (s : MuState) : MuState :=
  match s.task with
  | .notSpawned => s
  | .lock => if s.owner = none then { s with owner := some .task, task := .write } else s
  | .write => { s with val := 5, task := .unlock }
  | .unlock => { s with owner := none, task := .finished }
  | .finished => s

/-- One scheduled step of the useMutex system. -/
def muStep (t : Thread) (s : MuState) : MuState :=
  match t with
  | .caller => muCallerStep s
  | .task => muTaskStep s

/-- Run useMutex under a schedule, from the initial state. -/
def muRun (sched : List Thread) : MuState :=
  sched.foldl (fun s t => muStep t s) muInit

/-- Inductive invariant of useMutex: at every reachable combination of
program counters it pins down the mutex owner, the container value (0
before the goroutine's write, 5 after) and the recorded return value
(none before the read, then the value read, which is 0 or 5). -/
def MuInv (s : MuState) : Prop :=
  match s.caller, s.task with
  | .mkNum, .notSpawned => s.owner = none ∧ s.val = 0 ∧ s.ret = none
  | .spawn, .notSpawned => s.owner = none ∧ s.val = 0 ∧ s.ret = none
  | .lock, .lock => s.owner = none ∧ s.val = 0 ∧ s.ret = none
  | .read, .lock => s.owner = some .caller ∧ s.val = 0 ∧ s.ret = none
  | .unlock, .lock => s.owner = some .caller ∧ s.val = 0 ∧ s.ret = some 0
  | .done, .lock => s.owner = none ∧ s.val = 0 ∧ s.ret = some 0
  | .lock, .write => s.owner = some .task ∧ s.val = 0 ∧ s.ret = none
  | .lock, .unlock => s.owner = some .task ∧ s.val = 5 ∧ s.ret = none
  | .lock, .finished => s.owner = none ∧ s.val = 5 ∧ s.ret = none
  | .read, .finished => s.owner = some .caller ∧ s.val = 5 ∧ s.ret = none
  | .unlock, .finished => s.owner = some .caller ∧ s.val = 5 ∧ s.ret = some 5
  | .done, .write => s.owner = some .task ∧ s.val = 0 ∧ s.ret = some 0
  | .done, .unlock => s.owner = some .task ∧ s.val = 5 ∧ s.ret = some 0
  | .done, .finished => s.owner = none ∧ s.val = 5 ∧ (s.ret = some 0 ∨ s.ret = some 5)
  | _, _ => False

lemma muInit_inv : MuInv muInit := by
  simp [MuInv, muInit]

lemma muStep_inv (t : Thread) (s : MuState) (h : MuInv s) : MuInv (muStep t s) := by
  obtain ⟨val, owner, ret, caller, task⟩ := s
  cases t <;> cases caller <;> cases task <;>
    simp_all [MuInv, muStep, muCallerStep, muTaskStep]

lemma muRun_inv (sched : List Thread) : MuInv (muRun sched) := by
  suffices h : ∀ (l : List Thread) (s : MuState), MuInv s →
      MuInv (l.foldl (fun s t => muStep t s) s) from h sched muInit muInit_inv
  intro l
  induction l with
  | nil => intro s hs; exact hs
  | cons t l ih => intro s hs; exact ih _ (muStep_inv t s hs)

/-- Invariant of useMutex from any point at which the goroutine's
i.set(5) has fully completed while the caller's i.get() has not yet
acquired the mutex: the container already holds 5, so the get can only
read 5, and the recorded return value is 5 once the read has run. -/
def MuPostSet (s : MuState) : Prop :=
  match s.caller, s.task with
  | .lock, .finished => s.owner = none ∧ s.val = 5 ∧ s.ret = none
  | .read, .finished => s.owner = some .caller ∧ s.val = 5 ∧ s.ret = none
  | .unlock, .finished => s.owner = some .caller ∧ s.val = 5 ∧ s.ret = some 5
  | .done, .finished => s.owner = none ∧ s.val = 5 ∧ s.ret = some 5
  | _, _ => False

lemma muPostSet_step (t : Thread) (s : MuState) (h : MuPostSet s) :
    MuPostSet (muStep t s) := by
  obtain ⟨val, owner, ret, caller, task⟩ := s
  cases t <;> cases caller <;> cases task <;>
    simp_all [MuPostSet, muStep, muCallerStep, muTaskStep]

lemma muPostSet_run (l : List Thread) (s : MuState) (h : MuPostSet s) :
    MuPostSet (l.foldl (fun s t => muStep t s) s) := by
  induction l generalizing s with
  | nil => exact h
  | cons t l ih => exact ih _ (muPostSet_step t s h)

/-! ## Claim theorems -/

/-- Claim C1: for every invocation of blockingWithWaitgroups (every
schedule under which the call has returned), the returned integer is 5,
the value written by the spawned task, and never the zero-valued
default 0: the wait cannot return before the task signals completion. -/
theorem wg_returns_five (sched : List Thread)
    (h : (wgRun sched).caller = WgCallerPc.done) :
    (wgRun sched).i = 5 ∧ (wgRun sched).i ≠ 0 := by
  have hinv := wgRun_inv sched
  revert h hinv
  generalize wgRun sched = s
  obtain ⟨i, wg, caller, task⟩ := s
  intro h hinv
  cases caller <;> cases task <;> simp_all [WgInv]

/-- Witness for C1: a concrete completing schedule of
blockingWithWaitgroups, on which the theorem yields the return value 5. -/
theorem wg_returns_five_witness :
    (wgRun [.caller, .caller, .task, .task, .caller]).i = 5 ∧
      (wgRun [.caller, .caller, .task, .task, .caller]).i ≠ 0 :=
  wg_returns_five [.caller, .caller, .task, .task, .caller] (by decide)

/-- Claim C8: in blockingWithWaitgroups the WaitGroup counter never goes
negative and never exceeds 1; once wg.Add(1) has run, the counter is
zero exactly when the spawned task has performed its single wg.Done();
a returned caller saw the counter at zero; and the wg.Wait() step of a
caller facing a nonzero counter leaves the caller blocked at the wait. -/
theorem wg_counter_invariant (sched : List Thread) :
    0 ≤ (wgRun sched).wg ∧ (wgRun sched).wg ≤ 1 ∧
      ((wgRun sched).caller ≠ WgCallerPc.add →
        ((wgRun sched).wg = 0 ↔ (wgRun sched).task = WgTaskPc.finished)) ∧
      ((wgRun sched).caller = WgCallerPc.done → (wgRun sched).wg = 0) ∧
      ((wgRun sched).caller = WgCallerPc.wait → (wgRun sched).wg ≠ 0 →
        (wgCallerStep (wgRun sched)).caller = WgCallerPc.wait) := by
  have hinv := wgRun_inv sched
  revert hinv
  generalize wgRun sched = s
  obtain ⟨i, wg, caller, task⟩ := s
  intro hinv
  cases caller <;> cases task <;>
    simp_all [WgInv, wgCallerStep]

/-- Witness for C8: on a concrete completing schedule the theorem gives
a zero counter, equivalent to the task having finished. -/
theorem wg_counter_invariant_witness :
    (wgRun [.caller, .caller, .task, .task, .caller]).wg = 0 ∧
      ((wgRun [.caller, .caller, .task, .task, .caller]).wg = 0 ↔
        (wgRun [.caller, .caller, .task, .task, .caller]).task = WgTaskPc.finished) :=
  ⟨(wg_counter_invariant [.caller, .caller, .task, .task, .caller]).2.2.2.1 (by decide),
   (wg_counter_invariant [.caller, .caller, .task, .task, .caller]).2.2.1 (by decide)⟩

/-- Claim C5: blockingWithChannel is externally identical to
blockingWithWaitgroups: whenever both invocations have returned, under
any two schedules, they return the same value, namely 5. -/
theorem channel_waitgroup_equivalent (s1 s2 : List Thread)
    (h1 : (wgRun s1).caller = WgCallerPc.done)
    (h2 : (chRun s2).caller = ChCallerPc.done) :
    (wgRun s1).i = (chRun s2).i ∧ (chRun s2).i = 5 := by
  have hinv1 := wgRun_inv s1
  have hinv2 := chRun_inv s2
  revert h1 h2 hinv1 hinv2
  generalize wgRun s1 = u
  generalize chRun s2 = w
  obtain ⟨i1, wg1, c1, t1⟩ := u
  obtain ⟨i2, c2, t2⟩ := w
  intro h1 h2 hinv1 hinv2
  cases c1 <;> cases t1 <;> cases c2 <;> cases t2 <;> simp_all [WgInv, ChInv]

/-- Witness for C5: concrete completing schedules of the two blocking
patterns, on which the theorem yields equal results. -/
theorem channel_waitgroup_equivalent_witness :
    (wgRun [.caller, .caller, .task, .task, .caller]).i =
        (chRun [.caller, .caller, .task, .task]).i ∧
      (chRun [.caller, .caller, .task, .task]).i = 5 :=
  channel_waitgroup_equivalent [.caller, .caller, .task, .task, .caller]
    [.caller, .caller, .task, .task] (by decide) (by decide)

/-- Claim C4: the returningWithChannel call itself never blocks (each of
its three body statements advances unconditionally, with no enabling
guard); any value obtained from the returned handle is 5; no second
value is ever delivered; and there is a schedule under which the one
value 5 becomes available on the handle. -/
theorem future_channel_contract :
    (∀ s : RetState,
        s.caller = RetCallerPc.mkChan ∨ s.caller = RetCallerPc.spawn ∨
          s.caller = RetCallerPc.ret →
        (retCallerStep s).caller ≠ s.caller) ∧
      (∀ sched : List Thread, (∀ v, (retRun sched).x = some v → v = 5) ∧
        (retRun sched).y = none) ∧
      (∃ sched : List Thread, (retRun sched).x = some 5) := by
  refine ⟨?_, ?_, ⟨[.caller, .caller, .caller, .caller], by decide⟩⟩
  · intro s hs
    obtain ⟨x, y, caller, task⟩ := s
    cases caller <;> simp_all [retCallerStep]
  · intro sched
    have hinv := retRun_inv sched
    revert hinv
    generalize retRun sched = s
    obtain ⟨x, y, caller, task⟩ := s
    intro hinv
    cases caller <;> cases task <;> simp_all [RetInv]

/-- Witness for C4: the non-blocking clause applied at the concrete
initial state, whose caller is about to make the channel. -/
theorem future_channel_contract_witness :
    (retCallerStep retInit).caller ≠ retInit.caller :=
  future_channel_contract.1 retInit (Or.inl (by decide))

/-- Claim C9: for the handle returned by returningWithChannel, after the
one successful receive no second receive ever completes: under every
schedule the consumer never gets past its second receive attempt and
never obtains a second value (the goroutine sends exactly once and the
channel is never closed). -/
theorem single_delivery (sched : List Thread) :
    (retRun sched).caller ≠ RetCallerPc.done ∧ (retRun sched).y = none := by
  have hinv := retRun_inv sched
  revert hinv
  generalize retRun sched = s
  obtain ⟨x, y, caller, task⟩ := s
  intro hinv
  cases caller <;> cases task <;> simp_all [RetInv]

/-- Claim C2: whenever useMutex has returned, the returned value is
untorn: it is either the zero-valued default 0 or the written value 5,
and both outcomes actually occur under some schedule. -/
theorem mutex_result_untorn :
    (∀ sched : List Thread, (muRun sched).caller = MuCallerPc.done →
        (muRun sched).ret = some 0 ∨ (muRun sched).ret = some 5) ∧
      (∃ sched : List Thread,
        (muRun sched).caller = MuCallerPc.done ∧ (muRun sched).ret = some 0) ∧
      (∃ sched : List Thread,
        (muRun sched).caller = MuCallerPc.done ∧ (muRun sched).ret = some 5) := by
  refine ⟨?_, ⟨[.caller, .caller, .caller, .caller, .caller], by decide⟩,
    ⟨[.caller, .caller, .task, .task, .task, .caller, .caller, .caller], by decide⟩⟩
  intro sched h
  have hinv := muRun_inv sched
  revert h hinv
  generalize muRun sched = s
  obtain ⟨val, owner, ret, caller, task⟩ := s
  intro h hinv
  cases caller <;> cases task <;> simp_all [MuInv]

/-- Witness for C2: the universal clause applied to a concrete
completing schedule of useMutex. -/
theorem mutex_result_untorn_witness :
    (muRun [.caller, .caller, .caller, .caller, .caller]).ret = some 0 ∨
      (muRun [.caller, .caller, .caller, .caller, .caller]).ret = some 5 :=
  mutex_result_untorn.1 [.caller, .caller, .caller, .caller, .caller] (by decide)

/-- Claim C7: in useMutex, each accessor holds the container's mutex for
its full duration and releases it on exit: during the read of i.val the
caller owns the mutex, during the write i.val = 5 the goroutine owns
it, likewise at each deferred Unlock; a returned get no longer owns the
mutex, a finished set no longer owns it, and once both accessors have
completed the mutex is free. -/
theorem accessor_lock_discipline (sched : List Thread) :
    ((muRun sched).caller = MuCallerPc.read → (muRun sched).owner = some Thread.caller) ∧
      ((muRun sched).caller = MuCallerPc.unlock → (muRun sched).owner = some Thread.caller) ∧
      ((muRun sched).task = MuTaskPc.write → (muRun sched).owner = some Thread.task) ∧
      ((muRun sched).task = MuTaskPc.unlock → (muRun sched).owner = some Thread.task) ∧
      ((muRun sched).caller = MuCallerPc.done → (muRun sched).owner ≠ some Thread.caller) ∧
      ((muRun sched).task = MuTaskPc.finished → (muRun sched).owner ≠ some Thread.task) ∧
      ((muRun sched).caller = MuCallerPc.done ∧ (muRun sched).task = MuTaskPc.finished →
        (muRun sched).owner = none) := by
  have hinv := muRun_inv sched
  revert hinv
  generalize muRun sched = s
  obtain ⟨val, owner, ret, caller, task⟩ := s
  intro hinv
  cases caller <;> cases task <;> simp_all [MuInv]

/-- Witness for C7: on a concrete schedule on which both accessors have
completed, the theorem gives a free mutex. -/
theorem accessor_lock_discipline_witness :
    (muRun [.caller, .caller, .task, .task, .task, .caller, .caller, .caller]).owner = none :=
  (accessor_lock_discipline
      [.caller, .caller, .task, .task, .task, .caller, .caller, .caller]).2.2.2.2.2.2
    ⟨by decide, by decide⟩

/-- Claim C3 counterexample: the claim fails on useMutex.  Under the
concrete schedule in which the caller runs its whole get before the
spawned set has taken a step, the invocation completes and returns 0,
not 5. -/
theorem four_patterns_counterexample :
    (muRun [.caller, .caller, .caller, .caller, .caller]).caller = MuCallerPc.done ∧
      (muRun [.caller, .caller, .caller, .caller, .caller]).ret = some 0 ∧
      (muRun [.caller, .caller, .caller, .caller, .caller]).ret ≠ some 5 := by
  decide

/-- Claim C3 as amended: the three happens-before patterns
(blockingWithWaitgroups, blockingWithChannel, returningWithChannel)
return exactly 5 on every completed invocation; useMutex returns either
0 or 5, and on every schedule in which the spawned set(5) has fully
completed before the caller's get has begun (the task is finished while
the caller has not yet acquired the mutex), every completed
continuation returns 5; such schedules exist. -/
theorem four_patterns_amended :
    (∀ sched : List Thread, (wgRun sched).caller = WgCallerPc.done →
        (wgRun sched).i = 5) ∧
      (∀ sched : List Thread, (chRun sched).caller = ChCallerPc.done →
        (chRun sched).i = 5) ∧
      (∀ (sched : List Thread) (v : Int), (retRun sched).x = some v → v = 5) ∧
      (∀ sched : List Thread, (muRun sched).caller = MuCallerPc.done →
        (muRun sched).ret = some 0 ∨ (muRun sched).ret = some 5) ∧
      (∀ sched1 sched2 : List Thread,
        (muRun sched1).task = MuTaskPc.finished →
        ((muRun sched1).caller = MuCallerPc.mkNum ∨
          (muRun sched1).caller = MuCallerPc.spawn ∨
          (muRun sched1).caller = MuCallerPc.lock) →
        (muRun (sched1 ++ sched2)).caller = MuCallerPc.done →
        (muRun (sched1 ++ sched2)).ret = some 5) ∧
      (∃ sched : List Thread,
        (muRun sched).caller = MuCallerPc.done ∧ (muRun sched).ret = some 5) := by
  refine ⟨?_, ?_, ?_, ?_, ?_,
    ⟨[.caller, .caller, .task, .task, .task, .caller, .caller, .caller], by decide⟩⟩
  · intro sched h
    have hinv := wgRun_inv sched
    revert h hinv
    generalize wgRun sched = s
    obtain ⟨i, wg, caller, task⟩ := s
    intro h hinv
    cases caller <;> cases task <;> simp_all [WgInv]
  · intro sched h
    have hinv := chRun_inv sched
    revert h hinv
    generalize chRun sched = s
    obtain ⟨i, caller, task⟩ := s
    intro h hinv
    cases caller <;> cases task <;> simp_all [ChInv]
  · intro sched v h
    have hinv := retRun_inv sched
    revert h hinv
    generalize retRun sched = s
    obtain ⟨x, y, caller, task⟩ := s
    intro h hinv
    cases caller <;> cases task <;> simp_all [RetInv]
  · intro sched h
    have hinv := muRun_inv sched
    revert h hinv
    generalize muRun sched = s
    obtain ⟨val, owner, ret, caller, task⟩ := s
    intro h hinv
    cases caller <;> cases task <;> simp_all [MuInv]
  · intro sched1 sched2 h1 h2 h3
    have hpost : MuPostSet (muRun sched1) := by
      have hinv := muRun_inv sched1
      revert h1 h2 hinv
      generalize muRun sched1 = s
      obtain ⟨val, owner, ret, caller, task⟩ := s
      intro h1 h2 hinv
      cases caller <;> cases task <;> simp_all [MuInv, MuPostSet]
    have hrun : muRun (sched1 ++ sched2) =
        sched2.foldl (fun s t => muStep t s) (muRun sched1) := by
      simp [muRun, List.foldl_append]
    rw [hrun] at h3 ⊢
    have hpost2 := muPostSet_run sched2 (muRun sched1) hpost
    revert h3 hpost2
    generalize sched2.foldl (fun s t => muStep t s) (muRun sched1) = s
    obtain ⟨val, owner, ret, caller, task⟩ := s
    intro h3 hpost2
    cases caller <;> cases task <;> simp_all [MuPostSet]

/-- Witness for the amended C3: the first two clauses applied to
concrete completing schedules of the two blocking patterns, and the
set-before-get clause applied to a concrete schedule prefix on which
the spawned set has finished before the get acquired the mutex,
extended by a completing continuation of the get. -/
theorem four_patterns_amended_witness :
    (wgRun [.caller, .caller, .task, .task, .caller]).i = 5 ∧
      (chRun [.caller, .caller, .task, .task]).i = 5 ∧
      (muRun ([.caller, .caller, .task, .task, .task] ++
        [.caller, .caller, .caller])).ret = some 5 :=
  ⟨four_patterns_amended.1 [.caller, .caller, .task, .task, .caller] (by decide),
   four_patterns_amended.2.1 [.caller, .caller, .task, .task] (by decide),
   four_patterns_amended.2.2.2.2.1 [.caller, .caller, .task, .task, .task]
     [.caller, .caller, .caller] (by decide) (by decide) (by decide)⟩

/-- Claim C6: on an unlocked safeNumber, set(v) stores exactly v with
the mutex free again, and get() on the resulting container returns v
(set replaces the current value, get reads it back). -/
theorem set_then_get (sn : safeNumber) (v : Int) (h : sn.m = false) :
    sn.set v = some { val := v, m := false } ∧
      safeNumber.get { val := v, m := false } = some (v, { val := v, m := false }) := by
  obtain ⟨val, m⟩ := sn
  simp_all [safeNumber.set, safeNumber.get, mLock, mUnlock]

/-- Witness for C6: set 42 then get on the zero-valued safeNumber. -/
theorem set_then_get_witness :
    mkSafeNumber.set 42 = some { val := 42, m := false } ∧
      safeNumber.get { val := 42, m := false } = some (42, { val := 42, m := false }) :=
  set_then_get mkSafeNumber 42 (by decide)

/-- Claim C10: get is a pure read: a completed get() leaves val
unchanged, returns exactly the stored val, and an immediately repeated
get() on the resulting container returns the same value again; and
get() on a freshly constructed safeNumber returns the zero value 0. -/
theorem get_is_pure_read :
    (∀ (sn : safeNumber) (v : Int) (sn1 : safeNumber),
        sn.get = some (v, sn1) →
          sn1.val = sn.val ∧ v = sn.val ∧ sn1.get = some (v, sn1)) ∧
      mkSafeNumber.get = some (0, mkSafeNumber) := by
  constructor
  · intro sn v sn1 h
    obtain ⟨val, m⟩ := sn
    obtain ⟨val1, m1⟩ := sn1
    cases m <;> cases m1 <;> simp_all [safeNumber.get, mLock, mUnlock]
    omega
  · decide

/-- Witness for C10: the frame clause applied to a concrete container
holding 7. -/
theorem get_is_pure_read_witness :
    ({ val := 7, m := false } : safeNumber).val = ({ val := 7, m := false } : safeNumber).val ∧
      (7 : Int) = ({ val := 7, m := false } : safeNumber).val ∧
      safeNumber.get { val := 7, m := false } = some (7, { val := 7, m := false }) :=
  get_is_pure_read.1 { val := 7, m := false } 7 { val := 7, m := false } (by decide)

end RaceDemo
